import Mathlib

/-!
Verification of the faostat-pipeline repository against its specification.

The development shallowly embeds the Python sources:
  * `cleaner.py`   : response-envelope extraction and frame cleaning,
  * `exporter.py`  : CSV/Parquet export and partitioned export,
  * `client.py`    : the retrying HTTP client (status classification, retry policy),
  * `pipeline.py`  : single-domain orchestration and batch orchestration,
  * `cli.py`       : the `fetch` command entry point.

pandas DataFrames are modelled by `Frame` (a column-name list plus positional
rows of nullable scalar cells); pandas floats are modelled by `Rat`; code that
can raise is modelled in `Except`.  Filesystem and network side effects are
modelled by explicit `Effect` traces; the network is an oracle parameter.
-/

namespace Faostat

/-- A scalar JSON/pandas value: string, number (pandas numeric, modelled as a
rational) or boolean.  A missing value (`null`/`NaN`/`NA`) is `none` at the
`Cell` level. -/
inductive Scalar where
  | str (s : String)
  | num (q : Rat)
  | bool (b : Bool)
deriving DecidableEq, Repr

/-- A nullable cell of a frame. -/
abbrev Cell := Option Scalar

/-- One raw record: a mapping from field name to nullable scalar value,
as produced by JSON decoding of one element of the record list. -/
abbrev Record := List (String × Cell)

/-- A JSON value, as returned by `response.json()`. -/
inductive JVal where
  | null
  | str (s : String)
  | num (q : Rat)
  | bool (b : Bool)
  | arr (xs : List JVal)
  | obj (kvs : List (String × JVal))

/-- A raw API response in the domain of `cleaner._extract_records` and
`pipeline._response_has_data`: either a JSON list or a JSON mapping. -/
inductive RawResponse where
  | list (xs : List JVal)
  | obj (kvs : List (String × JVal))

/-- A pandas DataFrame: ordered column names and positional rows.  By
construction every row has one cell per column. -/
structure Frame where
  cols : List String
  rows : List (List Cell)
deriving DecidableEq, Repr

/-- Model of `DataFrame.empty`: true when either axis has length zero. -/
def Frame.isEmpty (f : Frame) : Bool := f.rows.isEmpty || f.cols.isEmpty

/-! ## cleaner.py : envelope extraction -/

/-- The recognized wrapper keys, in the priority order of the source tuple
`("data", "Data", "items", "results")`. -/
def wrapperKeys : List String := ["data", "Data", "items", "results"]

/-- The scan `for key in (...): if key in raw and isinstance(raw[key], list)`:
the first listed key whose value in `kvs` is a JSON list. -/
def findWrapperList (kvs : List (String × JVal)) : List String → Option (List JVal)
  | [] => none
  | k :: ks =>
    match kvs.lookup k with
    | some (JVal.arr xs) => some xs
    | _ => findWrapperList kvs ks

/-- Model of `cleaner._extract_records`: a list passes through; a mapping yields the
first wrapper-key list, else (non-empty) is wrapped as a single record, else
yields the empty list. -/
def extract_records : RawResponse → List JVal
  | .list xs => xs
  | .obj kvs =>
    match findWrapperList kvs wrapperKeys with
    | some xs => xs
    | none => if kvs.isEmpty then [] else [JVal.obj kvs]

/-- Model of `pipeline._response_has_data`: a list is data iff non-empty; a mapping is
data iff its first list-valued wrapper key holds a non-empty list; anything
else (including a mapping with no list-valued wrapper key) is not data. -/
def response_has_data : RawResponse → Bool
  | .list xs => decide (0 < xs.length)
  | .obj kvs =>
    match findWrapperList kvs wrapperKeys with
    | some xs => decide (0 < xs.length)
    | none => false

/-! ## cleaner.py : snake-case renaming

`_to_snake_case` applies three `re.sub` passes then lowercases and strips
underscores.  Each pass is embedded as a left-to-right, non-overlapping
substitution on the character list, exactly following the regex semantics on
ASCII input.  The fuelled functions are run with fuel equal to the input
length, which every step strictly decreases. -/

/-- Length of the leading uppercase run. -/
def upperRunLen : List Char → Nat
  | [] => 0
  | c :: rest => if c.isUpper then upperRunLen rest + 1 else 0

/-- Model of `re.sub(r"([A-Z]+)([A-Z][a-z])", r"\1_\2", name)`: at each position, a
match needs an uppercase run of length at least two whose last upper is
followed by a lowercase; the underscore is inserted before that last upper. -/
def sub1Fuel : Nat → List Char → List Char
  | 0, cs => cs
  | _ + 1, [] => []
  | fuel + 1, c :: rest =>
    let cs := c :: rest
    let r := upperRunLen cs
    if 2 ≤ r ∧ ((cs.drop r).headD ' ').isLower then
      cs.take (r - 1) ++ '_' :: ((cs.drop (r - 1)).take 2 ++ sub1Fuel fuel (cs.drop (r + 1)))
    else c :: sub1Fuel fuel rest

/-- Model of `re.sub(r"([a-z\d])([A-Z])", r"\1_\2", name)`. -/
def sub2 : List Char → List Char
  | a :: b :: rest =>
    if (a.isLower || a.isDigit) && b.isUpper then a :: '_' :: b :: sub2 rest
    else a :: sub2 (b :: rest)
  | cs => cs

/-- A character of the class `[\s\-]`. -/
def sepChar (c : Char) : Bool := c.isWhitespace || c == '-'

/-- Model of `re.sub(r"[\s\-]+", "_", name)`: each maximal separator run becomes one
underscore. -/
def sub3Fuel : Nat → List Char → List Char
  | 0, cs => cs
  | _ + 1, [] => []
  | fuel + 1, c :: rest =>
    if sepChar c then '_' :: sub3Fuel fuel (rest.dropWhile sepChar)
    else c :: sub3Fuel fuel rest

/-- Model of `str.strip("_")`: drop leading and trailing underscores. -/
def stripUnderscores (cs : List Char) : List Char :=
  ((cs.dropWhile (· == '_')).reverse.dropWhile (· == '_')).reverse

/-- Model of `cleaner._to_snake_case`. -/
def to_snake_case (name : String) : String :=
  let cs1 := sub1Fuel name.toList.length name.toList
  let cs2 := sub2 cs1
  let cs3 := sub3Fuel cs2.length cs2
  String.mk (stripUnderscores (cs3.map Char.toLower))

/-! ## cleaner.py : DataFrame construction and cleaning steps -/

/-- Accumulate the keys of one record into the ordered column set. -/
def addRecordKeys (acc : List String) (r : Record) : List String :=
  r.foldl (fun a kv => if kv.1 ∈ a then a else a ++ [kv.1]) acc

/-- Model of `pd.DataFrame(records)` column set: union of record keys in order of first
appearance. -/
def frameCols (records : List Record) : List String :=
  records.foldl addRecordKeys []

/-- The positional row of one record: the value under each column key, `none`
when the key is absent or its value is null. -/
def recordRow (cols : List String) (r : Record) : List Cell :=
  cols.map (fun c => (List.lookup c r).join)

/-- Model of `pd.DataFrame(records)` for a list of records. -/
def dataFrameOfRecords (records : List Record) : Frame :=
  ⟨frameCols records, records.map (recordRow (frameCols records))⟩

/-- Model of `cleaner._normalize_columns`: rename every column to snake case. -/
def normalize_columns (f : Frame) : Frame :=
  ⟨f.cols.map to_snake_case, f.rows⟩

/-- A column targeted by the year cast: its name contains `"year"`. -/
def yearTarget (c : String) : Bool := decide ("year".toList <:+: c.toList)

/-- A column targeted by the value cast: named `value`, `val`, `quantity` or
`amount`. -/
def valueTarget (c : String) : Bool :=
  ["value", "val", "quantity", "amount"].contains c

/-- Consume a maximal digit run, returning accumulated value, digit count and
the rest. -/
def takeDigits (acc n : Nat) : List Char → Nat × Nat × List Char
  | [] => (acc, n, [])
  | c :: rest =>
    if c.isDigit then takeDigits (acc * 10 + (c.toNat - 48)) (n + 1) rest
    else (acc, n, c :: rest)

/-- An optional leading sign. -/
def parseSign : List Char → Int × List Char
  | '+' :: rest => (1, rest)
  | '-' :: rest => (-1, rest)
  | cs => (1, cs)

/-- The exponent tail after `e`/`E`: optional sign then at least one digit,
consuming the whole remainder. -/
def parseExpTail (cs : List Char) : Option Int :=
  let sg := parseSign cs
  let d := takeDigits 0 0 sg.2
  if d.2.1 = 0 then none
  else if !d.2.2.isEmpty then none
  else some (sg.1 * Int.ofNat d.1)

/-- The rational `sgn * (ip.fp) * 10^ex` with `nf` fractional digits. -/
def decimalOfParts (sgn : Int) (ip fp nf : Nat) (ex : Int) : Rat :=
  let mant : Int := sgn * Int.ofNat (ip * 10 ^ nf + fp)
  if 0 ≤ ex then mkRat (mant * 10 ^ ex.toNat) (10 ^ nf)
  else mkRat mant (10 ^ nf * 10 ^ (-ex).toNat)

/-- Numeric-string parsing as performed by `pd.to_numeric` on decimal-form
strings: optional sign, digits with an optional fractional part and an
optional exponent.  Any other string fails (and so coerces to null under
`errors="coerce"`). -/
def parseDecimal (s : String) : Option Rat :=
  let sg := parseSign s.toList
  let ipart := takeDigits 0 0 sg.2
  let fpart :=
    match ipart.2.2 with
    | '.' :: rest => takeDigits 0 0 rest
    | cs => (0, 0, cs)
  if ipart.2.1 + fpart.2.1 = 0 then none
  else
    match fpart.2.2 with
    | [] => some (decimalOfParts sg.1 ipart.1 fpart.1 fpart.2.1 0)
    | 'e' :: rest =>
      match parseExpTail rest with
      | some ex => some (decimalOfParts sg.1 ipart.1 fpart.1 fpart.2.1 ex)
      | none => none
    | 'E' :: rest =>
      match parseExpTail rest with
      | some ex => some (decimalOfParts sg.1 ipart.1 fpart.1 fpart.2.1 ex)
      | none => none
    | _ => none

/-- Model of `pd.to_numeric(cell, errors="coerce")` on one cell: numbers pass through,
booleans become 0/1, strings are parsed, anything unparsable or null becomes
null. -/
def toNumeric (x : Cell) : Option Rat :=
  match x with
  | none => none
  | some (.num q) => some q
  | some (.bool b) => some (if b then 1 else 0)
  | some (.str s) => parseDecimal s

/-- Error-propagating map over a list (the effect of a raising loop body). -/
def exMapM {α β : Type} (f : α → Except String β) : List α → Except String (List β)
  | [] => .ok []
  | a :: as =>
    match f a with
    | .error e => .error e
    | .ok b =>
      match exMapM f as with
      | .error e => .error e
      | .ok bs => .ok (b :: bs)

/-- The cast of one cell in column `c`: year columns become nullable integers
(`astype("Int64")` raises on a non-integral numeric), value columns become
nullable floats, other columns are untouched. -/
def castCell (c : String) (x : Cell) : Except String Cell :=
  if yearTarget c then
    match toNumeric x with
    | none => .ok none
    | some q =>
      if q.den = 1 then .ok (some (.num q))
      else .error ("cannot safely cast non-equivalent float64 to int64 in column " ++ c)
  else if valueTarget c then .ok ((toNumeric x).map Scalar.num)
  else .ok x

/-- Cast one positional row against the column names. -/
def castRow (cols : List String) (row : List Cell) : Except String (List Cell) :=
  exMapM (fun p => castCell p.1 p.2) (cols.zip row)

/-- Detects a duplicated cast-target label: `df[col]` on a duplicated label
returns a DataFrame and the cast raises. -/
def dupCastTarget (cols : List String) : Bool :=
  cols.any (fun c => (yearTarget c || valueTarget c) && decide (2 ≤ cols.count c))

/-- Model of `cleaner._cast_types`. -/
def cast_types (f : Frame) : Except String Frame :=
  if dupCastTarget f.cols then
    .error "cannot cast a duplicated column label"
  else
    match exMapM (castRow f.cols) f.rows with
    | .error e => .error e
    | .ok rows => .ok ⟨f.cols, rows⟩

/-- The `dropna(subset=data_cols, how="all")` keep-condition: some cell in a
column not named `fetched_at` is non-null. -/
def keepRow (cols : List String) (row : List Cell) : Bool :=
  (cols.zip row).any (fun p => if p.1 = "fetched_at" then false else p.2.isSome)

/-- Model of `cleaner._drop_empty_rows`. -/
def drop_empty_rows (f : Frame) : Frame :=
  ⟨f.cols, f.rows.filter (keepRow f.cols)⟩

/-- Model of `drop_duplicates`: keep the first occurrence of each full row.  Fuelled
structurally; fuel equal to the list length always suffices. -/
def dedupFuel {α : Type} [DecidableEq α] : Nat → List α → List α
  | 0, l => l
  | _ + 1, [] => []
  | fuel + 1, a :: rest => a :: dedupFuel fuel (rest.filter (fun b => decide (b ≠ a)))

/-- Model of `df.drop_duplicates()` on a frame. -/
def drop_duplicates (f : Frame) : Frame :=
  ⟨f.cols, dedupFuel f.rows.length f.rows⟩

/-- Model of `df["fetched_at"] = timestamp`: overwrite an existing `fetched_at` column,
else append it. -/
def add_fetched_at (ts : String) (f : Frame) : Frame :=
  if f.cols.contains "fetched_at" then
    ⟨f.cols, f.rows.map (fun row =>
      (f.cols.zip row).map (fun p => if p.1 = "fetched_at" then some (Scalar.str ts) else p.2))⟩
  else
    ⟨f.cols ++ ["fetched_at"], f.rows.map (fun row => row ++ [some (Scalar.str ts)])⟩

/-- The cleaning chain of `cleaner.clean_data` applied to a non-empty record
list: DataFrame construction, column renaming, type casts, null-row drop,
deduplication, provenance column.  `ts` is the `datetime.now(tz=utc)`
timestamp read by the one invocation. -/
def clean_records (ts : String) (records : List Record) : Except String Frame :=
  match cast_types (normalize_columns (dataFrameOfRecords records)) with
  | .error e => .error e
  | .ok f1 => .ok (add_fetched_at ts (drop_duplicates (drop_empty_rows f1)))

/-- Decode one JSON field into a record field; nested containers are outside
the modelled flat-record fragment. -/
def toRecordField (kv : String × JVal) : Except String (String × Cell) :=
  match kv.2 with
  | .null => .ok (kv.1, none)
  | .str s => .ok (kv.1, some (.str s))
  | .num q => .ok (kv.1, some (.num q))
  | .bool b => .ok (kv.1, some (.bool b))
  | .arr _ => .error "nested list value in record"
  | .obj _ => .error "nested mapping value in record"

/-- Decode one extracted JSON element into a flat record. -/
def toRecord (v : JVal) : Except String Record :=
  match v with
  | .obj kvs => exMapM toRecordField kvs
  | _ => .error "record is not a mapping"

/-- Model of `cleaner.clean_data`: extract records from the envelope; an empty record
list yields the empty DataFrame, otherwise the cleaning chain runs. -/
def clean_data (ts : String) (raw : RawResponse) : Except String Frame :=
  match extract_records raw with
  | [] => .ok ⟨[], []⟩
  | r :: rs =>
    match exMapM toRecord (r :: rs) with
    | .error e => .error e
    | .ok records => clean_records ts records


/-! ## exporter.py

Side effects are recorded as an explicit trace; raising code is `Except` and
the source raises its precondition errors before performing any effect, so an
error result carries no trace. -/

/-- One observable side effect of the pipeline. -/
inductive Effect where
  | sizeRequest (domain : String)
  | dataRequest (domain : String)
  | fsMkdir (path : String)
  | fsWrite (path : String)
deriving DecidableEq, Repr

/-- Model of `exporter.export` (named `export_df` here because `export` is a Lean
keyword): fails on an empty frame, else creates `{output_dir}/{domain_code}`
and writes the selected formats, returning the format-to-path mapping of the
files actually written. -/
def export_df (df : Frame) (domain_code : String) (output_dir : String)
    (to_csv to_parquet : Bool) (parquet_compression : String) :
    Except String (List Effect × List (String × String)) :=
  if df.isEmpty then
    .error ("DataFrame for domain " ++ domain_code ++ " is empty - nothing to export.")
  else
    let domain_dir := output_dir ++ "/" ++ domain_code
    let csvFx : List Effect :=
      if to_csv then [Effect.fsWrite (domain_dir ++ "/data.csv")] else []
    let csvWritten : List (String × String) :=
      if to_csv then [("csv", domain_dir ++ "/data.csv")] else []
    let pqFx : List Effect :=
      if to_parquet then [Effect.fsWrite (domain_dir ++ "/data.parquet")] else []
    let pqWritten : List (String × String) :=
      if to_parquet then [("parquet", domain_dir ++ "/data.parquet")] else []
    .ok (Effect.fsMkdir domain_dir :: (csvFx ++ pqFx), csvWritten ++ pqWritten)

/-- Model of `str(value)` for a partition key (used only to form partition paths). -/
def showScalar : Scalar → String
  | .str s => s
  | .num q => if q.den = 1 then toString q.num else toString q
  | .bool b => if b then "True" else "False"

/-- Model of `exporter.export_partitioned`: fails on an empty frame or a missing
partition column, else writes one parquet file per distinct non-null value of
the partition column (grouping drops null keys; the group order of pandas is
left unspecified by the spec and first appearance is used here). -/
def export_partitioned (df : Frame) (domain_code : String) (partition_col : String)
    (output_dir : String) (parquet_compression : String) :
    Except String (List Effect × List String) :=
  if df.isEmpty then
    .error ("DataFrame for domain " ++ domain_code ++ " is empty - nothing to export.")
  else if !(df.cols.contains partition_col) then
    .error ("Partition column " ++ partition_col ++ " not found in DataFrame.")
  else
    let idx := df.cols.findIdx (· == partition_col)
    let keys := dedupFuel (df.rows.length) (df.rows.filterMap (fun r => r.getD idx none))
    let dirs := keys.map (fun v =>
      output_dir ++ "/" ++ domain_code ++ "/" ++ partition_col ++ "=" ++ showScalar v)
    let files := dirs.map (fun d => d ++ "/data.parquet")
    .ok ((dirs.map Effect.fsMkdir).zip (files.map Effect.fsWrite) |>.foldr
      (fun p acc => p.1 :: p.2 :: acc) [], files)

/-! ## client.py : status classification and retry policy -/

/-- The exception classes a request can surface: `FAOSTATAuthError`,
`FAOSTATRateLimitError`, `httpx.HTTPStatusError` (from `raise_for_status`)
and `httpx.TransportError`. -/
inductive HttpExn where
  | authError (status : Nat)
  | rateLimitError
  | httpStatusError (status : Nat)
  | transportError
deriving DecidableEq, Repr

/-- The body of an HTTP response: empty, JSON, or non-JSON text. -/
inductive Body where
  | empty
  | json (v : JVal)
  | nonJson (t : String)

/-- The outcome of one low-level request attempt: a transport failure or a
response with a status and a body. -/
inductive AttemptResult where
  | transportError
  | response (status : Nat) (body : Body)

/-- Model of `client._raise_for_status`: 401/403 raise Auth, 429 raises RateLimited,
any other non-2xx raises `httpx.HTTPStatusError`; 2xx passes. -/
def raise_for_status (status : Nat) : Option HttpExn :=
  if status = 401 then some (.authError 401)
  else if status = 403 then some (.authError 403)
  else if status = 429 then some .rateLimitError
  else if status < 200 ∨ 300 ≤ status then some (.httpStatusError status)
  else none

/-- The 2xx body handling of `client.FAOSTATClient.get`: an empty body yields
a status descriptor, JSON yields the payload, non-JSON yields a status+text
descriptor. -/
def parseBody (status : Nat) (b : Body) : JVal :=
  match b with
  | .empty => .obj [("status", JVal.num status)]
  | .json v => v
  | .nonJson t => .obj [("status", JVal.num status), ("text", JVal.str t)]

/-- One attempt of `get`: classify the outcome into a payload or an
exception. -/
def getAttempt : AttemptResult → Except HttpExn JVal
  | .transportError => .error .transportError
  | .response status body =>
    match raise_for_status status with
    | some e => .error e
    | none => .ok (parseBody status body)

/-- Model of `client._retry_on_transient`: retry on `httpx.TransportError` and on
`httpx.HTTPStatusError` with status at least 500; never on Auth or
RateLimited. -/
def retry_on_transient : HttpExn → Bool
  | .transportError => true
  | .httpStatusError s => decide (500 ≤ s)
  | _ => false

/-- The tenacity loop of `@retry(stop=stop_after_attempt(maxAttempts),
retry=_retry_on_transient, reraise=True)`: run attempt `i`; return a success
immediately; rerun only a retryable failure while fewer than `maxAttempts`
attempts were made, else surface the failure unchanged.  Returns the result
and the number of attempts performed. -/
def retryLoop (f : Nat → Except HttpExn JVal) (maxAttempts : Nat) :
    Nat → Nat → Except HttpExn JVal × Nat
  | 0, i => (f i, i + 1)
  | fuel + 1, i =>
    match f i with
    | .ok v => (.ok v, i + 1)
    | .error e =>
      if retry_on_transient e = true ∧ i + 1 < maxAttempts then
        retryLoop f maxAttempts fuel (i + 1)
      else (.error e, i + 1)

/-- Model of `client.FAOSTATClient.get` over an oracle giving the low-level outcome of
each attempt: the retry policy with `stop_after_attempt(3)`. -/
def client_get (att : Nat → AttemptResult) : Except HttpExn JVal × Nat :=
  retryLoop (fun i => getAttempt (att i)) 3 3 0

/-! ## pipeline.py -/

/-- The failure states of one domain run. -/
inductive PipeErr where
  | httpError (e : HttpExn)
  | emptyUpstream (domain : String)
  | cleanError (msg : String)
  | emptyAfterClean (domain : String)
  | exportError (msg : String)
deriving DecidableEq, Repr

/-- View a fetched JSON payload as a `RawResponse` when it is a list or a
mapping; scalars are not data (`_response_has_data` answers false on them). -/
def toRaw : JVal → Option RawResponse
  | .arr xs => some (.list xs)
  | .obj kvs => some (.obj kvs)
  | _ => none

/-- Model of `pipeline.run_pipeline` for one domain, over a network oracle `net`
giving the outcome of the data fetch: optional size estimate (best effort,
swallowed), fetch, raw-data validation, cleaning, cleaned-data validation,
export.  Returns the effect trace and the result. -/
def run_pipeline (ts : String) (net : String → Except HttpExn JVal)
    (domain_code : String) (output_dir : String) (to_csv to_parquet : Bool)
    (parquet_compression : String) (check_size_first : Bool) :
    List Effect × Except PipeErr (List (String × String)) :=
  let fx := (if check_size_first then [Effect.sizeRequest domain_code] else []) ++
    [Effect.dataRequest domain_code]
  match net domain_code with
  | .error e => (fx, .error (.httpError e))
  | .ok v =>
    match toRaw v with
    | none => (fx, .error (.emptyUpstream domain_code))
    | some raw =>
      if response_has_data raw then
        match clean_data ts raw with
        | .error m => (fx, .error (.cleanError m))
        | .ok df =>
          if df.isEmpty then (fx, .error (.emptyAfterClean domain_code))
          else
            match export_df df domain_code output_dir to_csv to_parquet parquet_compression with
            | .error m => (fx, .error (.exportError m))
            | .ok (wfx, written) => (fx ++ wfx, .ok written)
      else (fx, .error (.emptyUpstream domain_code))

/-- Model of `results[code] = written` on a Python dict represented as an association
list with unique keys: update in place or append. -/
def dictInsert {β : Type} (k : String) (v : β) : List (String × β) → List (String × β)
  | [] => [(k, v)]
  | (k2, v2) :: rest =>
    if k2 = k then (k, v) :: rest else (k2, v2) :: dictInsert k v rest

/-- Record one domain's outcome in the results dict: a success is inserted,
a failure is swallowed at the per-domain boundary. -/
def batchStep (code : String) (r : Except PipeErr (List (String × String)))
    (acc : List (String × List (String × String))) :
    List (String × List (String × String)) :=
  match r with
  | .ok written => dictInsert code written acc
  | .error _ => acc

/-- The loop of `pipeline.run_pipeline_batch`: process the remaining codes
sequentially against the accumulated results. -/
def batchGo (ts : String) (net : String → Except HttpExn JVal) (output_dir : String)
    (to_csv to_parquet : Bool) (parquet_compression : String)
    (acc : List (String × List (String × String))) :
    List String → List Effect × List (String × List (String × String))
  | [] => ([], acc)
  | code :: rest =>
    let step := run_pipeline ts net code output_dir to_csv to_parquet parquet_compression true
    let restOut := batchGo ts net output_dir to_csv to_parquet parquet_compression
      (batchStep code step.2 acc) rest
    (step.1 ++ restOut.1, restOut.2)

/-- Model of `pipeline.run_pipeline_batch`. -/
def run_pipeline_batch (ts : String) (net : String → Except HttpExn JVal)
    (output_dir : String) (to_csv to_parquet : Bool) (parquet_compression : String)
    (domain_codes : List String) :
    List Effect × List (String × List (String × String)) :=
  batchGo ts net output_dir to_csv to_parquet parquet_compression [] domain_codes

/-! ## cli.py : the fetch command -/

/-- Model of `click.Abort`, the only failure the CLI surfaces after its error
handler. -/
inductive CliOutcome where
  | aborted
deriving DecidableEq, Repr

/-- Model of `cli.fetch`: derive the format switches, reject the invocation before any
network activity when both formats are disabled, then run the single-domain
pipeline or the batch. -/
def cli_fetch (ts : String) (net : String → Except HttpExn JVal)
    (domain_codes : List String) (output_dir : String) (no_csv no_parquet : Bool)
    (compression : String) :
    List Effect × Except CliOutcome (List (String × List (String × String))) :=
  let to_csv := !no_csv
  let to_parquet := !no_parquet
  if !to_csv && !to_parquet then ([], .error .aborted)
  else if domain_codes.length = 1 then
    let d := domain_codes.headD ""
    let r := run_pipeline ts net d output_dir to_csv to_parquet compression true
    (r.1,
      match r.2 with
      | .ok written => .ok [(d, written)]
      | .error _ => .error .aborted)
  else
    let r := run_pipeline_batch ts net output_dir to_csv to_parquet compression domain_codes
    (r.1, .ok r.2)

/-! ## Auxiliary definitions used by the statements -/

/-- Is an optional JSON value a list? (spec-side helper). -/
def isListValue : Option JVal → Bool
  | some (.arr _) => true
  | _ => false

/-- The list held by an optional JSON value (spec-side helper). -/
def listValueOf : Option JVal → List JVal
  | some (.arr xs) => xs
  | _ => []

/-- Envelope extraction as the specification words it: a sequence passes
through; otherwise the first of the keys `data`, `Data`, `items`, `results`
(in that fixed order) whose value is a list is returned; otherwise a
non-empty mapping becomes a single-element sequence wrapping the whole
mapping; otherwise the result is empty. -/
def extract_records_spec : RawResponse → List JVal
  | .list xs => xs
  | .obj kvs =>
    match wrapperKeys.find? (fun k => isListValue (kvs.lookup k)) with
    | some k => listValueOf (kvs.lookup k)
    | none => if kvs.isEmpty then [] else [JVal.obj kvs]

/-- A mapping with no list-valued wrapper key that is nevertheless non-empty:
the one case where extraction wraps the whole mapping as a single record
while the presence check answers false. -/
def flatDictWrap : RawResponse → Bool
  | .list _ => false
  | .obj kvs => (findWrapperList kvs wrapperKeys).isNone && !kvs.isEmpty

/-- The cells of a row in the non-provenance columns (every column not named
`fetched_at`). -/
def nonProvCells (cols : List String) (row : List Cell) : List Cell :=
  (cols.zip row).filterMap (fun p => if p.1 = "fetched_at" then none else some p.2)

/-- The raw response of end-to-end scenario A:
`{"data":[{"Year":"2020","Value":"5.5"},{"Year":"x","Value":null}]}`. -/
def rawScenarioA : RawResponse :=
  .obj [("data", JVal.arr [
    JVal.obj [("Year", JVal.str "2020"), ("Value", JVal.str "5.5")],
    JVal.obj [("Year", JVal.str "x"), ("Value", JVal.null)]])]

/-- The frame scenario A actually cleans to (one row: the second raw row is
dropped because its year coerces to null and its value is null). -/
def frameScenarioA (ts : String) : Frame :=
  ⟨["year", "value", "fetched_at"],
   [[some (Scalar.num 2020), some (Scalar.num (mkRat 11 2)), some (Scalar.str ts)]]⟩

/-- A raw response whose records already carry a `fetched_at` field. -/
def rawFetchedAtInput : RawResponse :=
  .list [JVal.obj [("fetched_at", JVal.str "a"), ("x", JVal.str "1")],
         JVal.obj [("fetched_at", JVal.str "b"), ("x", JVal.str "1")]]

/-- The frame `rawFetchedAtInput` cleans to: the provenance overwrite makes
its two rows fully identical. -/
def frameFetchedAtInput : Frame :=
  ⟨["fetched_at", "x"],
   [[some (Scalar.str "T"), some (Scalar.str "1")],
    [some (Scalar.str "T"), some (Scalar.str "1")]]⟩

/-- A record sequence with a duplicate record, used to witness the cleaning
invariants. -/
def recordsDupInput : List Record :=
  [[("Name", some (Scalar.str "a"))], [("Name", some (Scalar.str "a"))]]

/-- The frame `recordsDupInput` cleans to. -/
def frameDupInput : Frame :=
  ⟨["name", "fetched_at"], [[some (Scalar.str "a"), some (Scalar.str "T")]]⟩

/-! ## Supporting lemmas -/

theorem findWrapperList_eq_find (kvs : List (String × JVal)) :
    ∀ ks : List String,
      findWrapperList kvs ks =
        match ks.find? (fun k => isListValue (kvs.lookup k)) with
        | some k => some (listValueOf (kvs.lookup k))
        | none => none := by
  intro ks
  induction ks with
  | nil => rfl
  | cons k ks ih =>
    simp only [findWrapperList, List.find?]
    cases hk : List.lookup k kvs with
    | none => simpa [isListValue, hk] using ih
    | some v =>
      cases v <;> simp [isListValue, listValueOf, hk, ih]

/-! ## C6 : envelope extraction is total, deterministic, and follows the fixed
key-priority scan -/

/-- C6: envelope extraction is a total function on `RawResponse` (totality is
by construction of `extract_records`); it agrees everywhere with the
case-analysis the specification describes: a list passes through, else the
first of the keys `data`, `Data`, `items`, `results` whose value is a list is
returned, else a non-empty mapping is wrapped as a single record, else the
result is empty. -/
theorem extract_records_follows_spec :
    ∀ raw : RawResponse, extract_records raw = extract_records_spec raw := by
  intro raw
  cases raw with
  | list xs => rfl
  | obj kvs =>
    simp only [extract_records, extract_records_spec, findWrapperList_eq_find]
    cases h : List.find? (fun k => isListValue (kvs.lookup k)) wrapperKeys with
    | none => simp
    | some k => simp

/-! ## C2 : the presence check versus extraction -/

/-- C2 counterexample: for the non-empty mapping `{"x": 1}` (no wrapper key),
the presence check answers false although extraction returns the one-element
wrap of the mapping, refuting the claimed equivalence. -/
theorem response_has_data_extract_mismatch :
    ¬ (response_has_data (RawResponse.obj [("x", JVal.num 1)]) = true ↔
       extract_records (RawResponse.obj [("x", JVal.num 1)]) ≠ []) := by
  intro h
  have hne : extract_records (RawResponse.obj [("x", JVal.num 1)]) ≠ [] :=
    List.length_pos.mp (by decide)
  exact absurd (h.mpr hne) (by decide)

/-- C2 amended: the presence check is true exactly when extraction
yields a non-empty sequence *and* the response is not a non-empty mapping
without a list-valued wrapper key; for that flat-mapping case the presence
check answers false even though extraction wraps the whole mapping as one
record.  On lists and on mappings with a list-valued wrapper key the claimed
equivalence holds as stated. -/
theorem response_has_data_iff :
    ∀ raw : RawResponse,
      response_has_data raw = true ↔
        (extract_records raw ≠ [] ∧ flatDictWrap raw = false) := by
  intro raw
  cases raw with
  | list xs =>
    simp [response_has_data, extract_records, flatDictWrap, List.length_pos]
  | obj kvs =>
    simp only [response_has_data, extract_records, flatDictWrap]
    cases h : findWrapperList kvs wrapperKeys with
    | some xs => simp [List.length_pos]
    | none =>
      cases hk : kvs.isEmpty <;>
        simp_all [List.isEmpty_iff]

/-! ## C1 : end-to-end scenario A -/

/-- C1 counterexample: cleaning the scenario-A response yields a frame with
exactly one row, not the claimed two: after type coercion the second row
(year `"x"`, value null) is entirely null and the null-row drop removes it. -/
theorem clean_scenarioA_one_row :
    clean_data "2024-01-01T00:00:00+00:00" rawScenarioA =
      .ok (frameScenarioA "2024-01-01T00:00:00+00:00") ∧
    (frameScenarioA "2024-01-01T00:00:00+00:00").rows.length ≠ 2 := by
  exact ⟨rfl, by decide⟩

/-- C1 amended: cleaning the raw response
`{"data":[{"Year":"2020","Value":"5.5"},{"Year":"x","Value":null}]}` produces
a frame of exactly one row, with `year` = [2020], `value` = [5.5] and one
`fetched_at` column; the second row is dropped because `"x"` coerces to null
and its value is null, so it is all-null across non-provenance columns. -/
theorem clean_scenarioA :
    ∀ ts : String, clean_data ts rawScenarioA = .ok (frameScenarioA ts) := by
  intro ts
  rfl

/-! ## C8 : export preconditions -/

/-- C8: `export` fails with the "nothing to export" `ValueError` whenever the
frame has zero rows (the error is raised before the directory is created, so
no file is written: an error result carries no effect trace);
`export_partitioned` fails whenever the frame is empty or the partition
column is absent, again before any filesystem effect. -/
theorem export_precondition_errors :
    ∀ (df : Frame) (domain_code output_dir partition_col compression : String)
      (to_csv to_parquet : Bool),
      (df.rows = [] →
        ∃ m, export_df df domain_code output_dir to_csv to_parquet compression = .error m) ∧
      (df.rows = [] ∨ partition_col ∉ df.cols →
        ∃ m, export_partitioned df domain_code partition_col output_dir compression = .error m) := by
  intro df domain_code output_dir partition_col compression to_csv to_parquet
  constructor
  · intro h
    exact ⟨"DataFrame for domain " ++ domain_code ++ " is empty - nothing to export.",
      by simp [export_df, Frame.isEmpty, h]⟩
  · intro h
    by_cases he : df.isEmpty
    · exact ⟨"DataFrame for domain " ++ domain_code ++ " is empty - nothing to export.",
        by simp [export_partitioned, he]⟩
    · have hcols : partition_col ∉ df.cols := by
        rcases h with h | h
        · exact absurd (by simp [Frame.isEmpty, h] : df.isEmpty = true) he
        · exact h
      exact ⟨"Partition column " ++ partition_col ++ " not found in DataFrame.",
        by simp [export_partitioned, he, hcols]⟩

/-- C8 witness: the empty frame is rejected by `export`, and a one-row frame
without a `year` column is rejected by `export_partitioned year`. -/
theorem export_precondition_errors_witness :
    (∃ m, export_df ⟨[], []⟩ "QCL" "./output" true true "snappy" = .error m) ∧
    (∃ m, export_partitioned ⟨["x"], [[some (Scalar.str "1")]]⟩ "QCL" "year" "./output"
      "snappy" = .error m) :=
  ⟨(export_precondition_errors ⟨[], []⟩ "QCL" "./output" "year" "snappy" true true).1 rfl,
   (export_precondition_errors ⟨["x"], [[some (Scalar.str "1")]]⟩ "QCL" "./output" "year"
      "snappy" true true).2 (Or.inr (by decide))⟩

/-! ## C10 : export with no formats selected -/

/-- C10: calling `export` with a non-empty frame and both formats disabled
raises no error: it creates only the `{output_dir}/{domain_code}` directory,
writes no file, and returns the empty artifact mapping. -/
theorem export_no_formats :
    ∀ (df : Frame) (domain_code output_dir compression : String),
      df.isEmpty = false →
      export_df df domain_code output_dir false false compression =
        .ok ([Effect.fsMkdir (output_dir ++ "/" ++ domain_code)], []) := by
  intro df domain_code output_dir compression h
  simp [export_df, h]

/-- C10 witness at a concrete one-row frame. -/
theorem export_no_formats_witness :
    export_df ⟨["x"], [[some (Scalar.str "1")]]⟩ "QCL" "./output" false false "snappy" =
      .ok ([Effect.fsMkdir "./output/QCL"], []) :=
  export_no_formats ⟨["x"], [[some (Scalar.str "1")]]⟩ "QCL" "./output" "snappy" rfl

/-! ## C5 : auth and rate-limit statuses fail on the first attempt -/

/-- C5: a 401 or 403 response raises the Auth error class after exactly one
attempt, and a 429 response raises the RateLimited error class — distinct
from the Auth class — after exactly one attempt; none of these is retried. -/
theorem auth_and_rate_limit_not_retried :
    ∀ (att : Nat → AttemptResult) (b : Body),
      (att 0 = .response 401 b →
        client_get att = (.error (HttpExn.authError 401), 1)) ∧
      (att 0 = .response 403 b →
        client_get att = (.error (HttpExn.authError 403), 1)) ∧
      (att 0 = .response 429 b →
        client_get att = (.error HttpExn.rateLimitError, 1)) ∧
      (∀ s, HttpExn.rateLimitError ≠ HttpExn.authError s) := by
  intro att b
  refine ⟨?_, ?_, ?_, ?_⟩
  · intro h
    simp [client_get, retryLoop, getAttempt, h, raise_for_status, retry_on_transient]
  · intro h
    simp [client_get, retryLoop, getAttempt, h, raise_for_status, retry_on_transient]
  · intro h
    simp [client_get, retryLoop, getAttempt, h, raise_for_status, retry_on_transient]
  · intro s hx
    cases hx

/-- C5 witness: a constant-429 attempt oracle performs exactly one attempt
and surfaces the RateLimited error. -/
theorem auth_and_rate_limit_not_retried_witness :
    client_get (fun _ => AttemptResult.response 429 Body.empty) =
      (.error HttpExn.rateLimitError, 1) :=
  (auth_and_rate_limit_not_retried (fun _ => AttemptResult.response 429 Body.empty)
    Body.empty).2.2.1 rfl

/-! ## C4 : transient failures are retried up to 3 attempts -/

theorem retryLoop_attempts_le (f : Nat → Except HttpExn JVal) (maxAttempts : Nat) :
    ∀ (fuel i : Nat), i < maxAttempts →
      (retryLoop f maxAttempts fuel i).2 ≤ maxAttempts := by
  intro fuel
  induction fuel with
  | zero =>
    intro i h
    simpa [retryLoop] using h
  | succ n ih =>
    intro i h
    simp only [retryLoop]
    cases f i with
    | ok v => simpa using h
    | error e =>
      show (if retry_on_transient e = true ∧ i + 1 < maxAttempts then
          retryLoop f maxAttempts n (i + 1)
        else (Except.error e, i + 1)).2 ≤ maxAttempts
      by_cases hr : retry_on_transient e = true ∧ i + 1 < maxAttempts
      · rw [if_pos hr]
        exact ih (i + 1) hr.2
      · rw [if_neg hr]
        simpa using h

/-- C4: every call performs at most 3 attempts; when the first two attempts
fail transiently (transport failure or status at least 500) and the third
fails with any exception, that final exception is surfaced unchanged after
exactly 3 attempts; when the first two attempts fail transiently and the
third succeeds, the success payload is returned after exactly 3 attempts. -/
theorem client_get_retries :
    ∀ att : Nat → AttemptResult,
      (client_get att).2 ≤ 3 ∧
      (∀ e0 e1 e2, getAttempt (att 0) = .error e0 → retry_on_transient e0 = true →
        getAttempt (att 1) = .error e1 → retry_on_transient e1 = true →
        getAttempt (att 2) = .error e2 →
        client_get att = (.error e2, 3)) ∧
      (∀ e0 e1 v, getAttempt (att 0) = .error e0 → retry_on_transient e0 = true →
        getAttempt (att 1) = .error e1 → retry_on_transient e1 = true →
        getAttempt (att 2) = .ok v →
        client_get att = (.ok v, 3)) := by
  intro att
  refine ⟨retryLoop_attempts_le _ 3 3 0 (by omega), ?_, ?_⟩
  · intro e0 e1 e2 h0 hr0 h1 hr1 h2
    simp [client_get, retryLoop, h0, hr0, h1, hr1, h2]
  · intro e0 e1 v h0 hr0 h1 hr1 h2
    simp [client_get, retryLoop, h0, hr0, h1, hr1, h2]

/-- C4 witness: two transport failures followed by a 200 JSON response return
the parsed payload after exactly 3 attempts. -/
theorem client_get_retries_witness :
    client_get (fun i => if i < 2 then AttemptResult.transportError
      else AttemptResult.response 200 (Body.json (JVal.num 7))) = (.ok (JVal.num 7), 3) :=
  (client_get_retries (fun i => if i < 2 then AttemptResult.transportError
      else AttemptResult.response 200 (Body.json (JVal.num 7)))).2.2
    HttpExn.transportError HttpExn.transportError (JVal.num 7) rfl rfl rfl rfl rfl

/-! ## C3 : both formats disabled is rejected before any network activity -/

/-- C3: invoking the fetch pipeline with both the CSV and the Parquet format
disabled aborts with an empty effect trace: no size request, no data request
(no HTTP request at all) and no filesystem effect is performed.  The
validation lives in the `cli.fetch` entry point, before `run_pipeline` is
invoked. -/
theorem cli_fetch_rejects_no_formats :
    ∀ (ts : String) (net : String → Except HttpExn JVal)
      (domain_codes : List String) (output_dir compression : String),
      cli_fetch ts net domain_codes output_dir true true compression =
        ([], .error CliOutcome.aborted) := by
  intro ts net domain_codes output_dir compression
  rfl

/-! ## C9 : batch orchestration isolates per-domain failures -/

theorem lookup_dictInsert {β : Type} (k : String) (v : β) :
    ∀ (l : List (String × β)) (c : String),
      List.lookup c (dictInsert k v l) =
        if c = k then some v else List.lookup c l := by
  intro l
  induction l with
  | nil =>
    intro c
    by_cases hc : c = k
    · simp [dictInsert, List.lookup, hc]
    · simp [dictInsert, List.lookup, beq_false_of_ne hc, hc]
  | cons p rest ih =>
    obtain ⟨k2, v2⟩ := p
    intro c
    by_cases hk2 : k2 = k
    · subst hk2
      simp only [dictInsert, if_pos rfl]
      by_cases hc : c = k2
      · simp [List.lookup, hc]
      · simp [List.lookup, beq_false_of_ne hc, hc]
    · simp only [dictInsert, if_neg hk2]
      by_cases hc : c = k2
      · have hck : c ≠ k := by rw [hc]; exact hk2
        simp [List.lookup, hc, hck, hk2]
      · simp [List.lookup, beq_false_of_ne hc, ih]

theorem batchGo_lookup (ts : String) (net : String → Except HttpExn JVal)
    (output_dir : String) (to_csv to_parquet : Bool) (parquet_compression : String) :
    ∀ (codes : List String) (acc : List (String × List (String × String))) (c : String),
      List.lookup c (batchGo ts net output_dir to_csv to_parquet parquet_compression
          acc codes).2 =
        if c ∈ codes ∧ ((run_pipeline ts net c output_dir to_csv to_parquet
            parquet_compression true).2.toOption).isSome then
          (run_pipeline ts net c output_dir to_csv to_parquet parquet_compression true).2.toOption
        else List.lookup c acc := by
  intro codes
  induction codes with
  | nil =>
    intro acc c
    simp [batchGo]
  | cons d rest ih =>
    intro acc c
    simp only [batchGo]
    rw [ih]
    by_cases hcr : c ∈ rest ∧ ((run_pipeline ts net c output_dir to_csv to_parquet
        parquet_compression true).2.toOption).isSome
    · rw [if_pos hcr, if_pos ⟨List.mem_cons_of_mem d hcr.1, hcr.2⟩]
    · rw [if_neg hcr]
      by_cases hcd : c = d
      · subst hcd
        cases hout : (run_pipeline ts net c output_dir to_csv to_parquet
            parquet_compression true).2 with
        | ok w =>
          simp only [batchStep, Except.toOption]
          rw [lookup_dictInsert, if_pos rfl,
            if_pos ⟨List.mem_cons_self c rest, by rfl⟩]
        | error e =>
          simp only [batchStep, Except.toOption]
          rw [if_neg]
          intro hcontra
          simp at hcontra
      · cases hout : (run_pipeline ts net d output_dir to_csv to_parquet
            parquet_compression true).2 with
        | ok w =>
          simp only [batchStep]
          rw [lookup_dictInsert, if_neg hcd, if_neg]
          intro hcontra
          rcases hcontra with ⟨hmem, hsome⟩
          rcases List.mem_cons.mp hmem with h | h
          · exact hcd h
          · exact hcr ⟨h, hsome⟩
        | error e =>
          simp only [batchStep]
          rw [if_neg]
          intro hcontra
          rcases hcontra with ⟨hmem, hsome⟩
          rcases List.mem_cons.mp hmem with h | h
          · exact hcd h
          · exact hcr ⟨h, hsome⟩

/-- C9: batch orchestration processes the domain codes sequentially; a
failure of one domain is absorbed at the per-domain boundary and does not
halt the rest; the resulting mapping holds exactly the domains whose
single-domain run succeeded, each mapped to the artifacts written for it,
omitting every failed domain. -/
theorem run_pipeline_batch_results :
    ∀ (ts : String) (net : String → Except HttpExn JVal) (output_dir : String)
      (to_csv to_parquet : Bool) (parquet_compression : String)
      (codes : List String) (c : String),
      List.lookup c (run_pipeline_batch ts net output_dir to_csv to_parquet
          parquet_compression codes).2 =
        if c ∈ codes then
          (run_pipeline ts net c output_dir to_csv to_parquet parquet_compression true).2.toOption
        else none := by
  intro ts net output_dir to_csv to_parquet parquet_compression codes c
  unfold run_pipeline_batch
  rw [batchGo_lookup]
  by_cases hc : c ∈ codes
  · by_cases hs : ((run_pipeline ts net c output_dir to_csv to_parquet
        parquet_compression true).2.toOption).isSome
    · rw [if_pos ⟨hc, hs⟩, if_pos hc]
    · rw [if_neg (fun h => hs h.2), if_pos hc]
      simp only [List.lookup]
      cases hout : ((run_pipeline ts net c output_dir to_csv to_parquet
          parquet_compression true).2.toOption) with
      | none => rfl
      | some w => rw [hout] at hs; simp at hs
  · rw [if_neg (fun h => hc h.1), if_neg hc]
    rfl

/-! ## C7 : cleaning invariants -/

theorem exMapM_ok_length {α β : Type} (f : α → Except String β) :
    ∀ (l : List α) (l2 : List β), exMapM f l = .ok l2 → l2.length = l.length := by
  intro l
  induction l with
  | nil =>
    intro l2 h
    simp only [exMapM] at h
    cases h
    rfl
  | cons a as ih =>
    intro l2 h
    cases hf : f a with
    | error e =>
      simp only [exMapM, hf] at h
      exact Except.noConfusion h
    | ok b =>
      cases hrest : exMapM f as with
      | error e =>
        simp only [exMapM, hf, hrest] at h
        exact Except.noConfusion h
      | ok bs =>
        simp only [exMapM, hf, hrest] at h
        cases h
        simp [ih bs hrest]

theorem exMapM_ok_mem {α β : Type} (f : α → Except String β) :
    ∀ (l : List α) (l2 : List β), exMapM f l = .ok l2 →
      ∀ b ∈ l2, ∃ a ∈ l, f a = .ok b := by
  intro l
  induction l with
  | nil =>
    intro l2 h
    simp only [exMapM] at h
    cases h
    intro b hb
    cases hb
  | cons a as ih =>
    intro l2 h
    cases hf : f a with
    | error e =>
      simp only [exMapM, hf] at h
      exact Except.noConfusion h
    | ok b0 =>
      cases hrest : exMapM f as with
      | error e =>
        simp only [exMapM, hf, hrest] at h
        exact Except.noConfusion h
      | ok bs =>
        simp only [exMapM, hf, hrest] at h
        cases h
        intro b hb
        rcases List.mem_cons.mp hb with hb | hb
        · exact ⟨a, List.mem_cons_self a as, hb ▸ hf⟩
        · obtain ⟨a2, ha2, hfa2⟩ := ih bs hrest b hb
          exact ⟨a2, List.mem_cons_of_mem a ha2, hfa2⟩

theorem dedupFuel_subset {α : Type} [DecidableEq α] :
    ∀ (fuel : Nat) (l : List α) (x : α), x ∈ dedupFuel fuel l → x ∈ l := by
  intro fuel
  induction fuel with
  | zero =>
    intro l x h
    exact h
  | succ n ih =>
    intro l x h
    cases l with
    | nil => exact h
    | cons a rest =>
      simp only [dedupFuel] at h
      rcases List.mem_cons.mp h with h | h
      · exact h ▸ List.mem_cons_self a rest
      · exact List.mem_cons_of_mem a (List.mem_filter.mp (ih _ x h)).1

theorem dedupFuel_nodup {α : Type} [DecidableEq α] :
    ∀ (fuel : Nat) (l : List α), l.length ≤ fuel → (dedupFuel fuel l).Nodup := by
  intro fuel
  induction fuel with
  | zero =>
    intro l h
    have : l = [] := List.eq_nil_of_length_eq_zero (Nat.le_zero.mp h)
    subst this
    simp [dedupFuel]
  | succ n ih =>
    intro l h
    cases l with
    | nil => simp [dedupFuel]
    | cons a rest =>
      simp only [dedupFuel]
      rw [List.nodup_cons]
      constructor
      · intro hmem
        have hf := dedupFuel_subset n _ a hmem
        have := (List.mem_filter.mp hf).2
        simp at this
      · refine ih _ (le_trans (List.length_filter_le _ _) ?_)
        exact Nat.le_of_succ_le_succ h

theorem cast_types_ok_parts (fIn fOut : Frame) (h : cast_types fIn = .ok fOut) :
    fOut.cols = fIn.cols ∧ exMapM (castRow fIn.cols) fIn.rows = .ok fOut.rows := by
  unfold cast_types at h
  by_cases hd : dupCastTarget fIn.cols
  · rw [if_pos hd] at h
    simp at h
  · rw [if_neg hd] at h
    cases hm : exMapM (castRow fIn.cols) fIn.rows with
    | error e =>
      simp only [hm] at h
      exact Except.noConfusion h
    | ok rows =>
      simp only [hm] at h
      cases h
      exact ⟨rfl, rfl⟩

theorem nonProvCells_all :
    ∀ (cols : List String) (row : List Cell), "fetched_at" ∉ cols →
      nonProvCells cols row = (cols.zip row).map Prod.snd := by
  intro cols
  induction cols with
  | nil => intro row h; rfl
  | cons c cs ih =>
    intro row h
    cases row with
    | nil => rfl
    | cons x xs =>
      have hc : c ≠ "fetched_at" := fun he => h (by rw [he]; exact List.mem_cons_self _ _)
      have hrec := ih xs (fun hm => h (List.mem_cons_of_mem _ hm))
      simp only [nonProvCells] at hrec ⊢
      simp [hc, hrec]

theorem nonProvCells_append_fa :
    ∀ (cols : List String) (row : List Cell) (x : Cell), cols.length = row.length →
      nonProvCells (cols ++ ["fetched_at"]) (row ++ [x]) = nonProvCells cols row := by
  intro cols row x hlen
  unfold nonProvCells
  rw [List.zip_append hlen, List.filterMap_append]
  simp

theorem keepRow_eq_any :
    ∀ (cols : List String) (row : List Cell), "fetched_at" ∉ cols →
      keepRow cols row = (nonProvCells cols row).any Option.isSome := by
  intro cols
  induction cols with
  | nil => intro row h; cases row <;> rfl
  | cons c cs ih =>
    intro row h
    cases row with
    | nil => rfl
    | cons x xs =>
      have hc : c ≠ "fetched_at" := fun he => h (by rw [he]; exact List.mem_cons_self _ _)
      have hrec := ih xs (fun hm => h (List.mem_cons_of_mem _ hm))
      simp only [keepRow, nonProvCells] at hrec ⊢
      rw [List.zip_cons_cons]
      simp only [List.any_cons, List.filterMap_cons]
      rw [hrec]
      simp [hc]

/-- C7 amended: for every record sequence whose normalized column names do
not include `fetched_at`, the cleaned frame has no row that is all-null
across non-provenance columns, and no two rows that agree on all
non-provenance columns (duplicates are removed before `fetched_at` is
appended).  The restriction is forced: when an input column is itself named
`fetched_at`, the provenance overwrite can make two surviving rows
identical. -/
theorem clean_records_invariants :
    ∀ (ts : String) (records : List Record) (f : Frame),
      clean_records ts records = .ok f →
      "fetched_at" ∉ (frameCols records).map to_snake_case →
      (∀ row ∈ f.rows, (nonProvCells f.cols row).any Option.isSome = true) ∧
      (f.rows.map (nonProvCells f.cols)).Nodup := by
  intro ts records f h hfa
  unfold clean_records at h
  cases hct : cast_types (normalize_columns (dataFrameOfRecords records)) with
  | error e =>
    simp only [hct] at h
    exact Except.noConfusion h
  | ok f2 =>
    simp only [hct] at h
    cases h
    obtain ⟨hc2, hrows2⟩ := cast_types_ok_parts _ _ hct
    have hc2' : f2.cols = (frameCols records).map to_snake_case := hc2
    have hnofa : "fetched_at" ∉ f2.cols := by rw [hc2']; exact hfa
    have hlen1 : ∀ r ∈ f2.rows, r.length = f2.cols.length := by
      intro r hr
      obtain ⟨r0, hr0mem, hr0⟩ := exMapM_ok_mem _ _ _ hrows2 r hr
      have hlr := exMapM_ok_length _ _ _ hr0
      have hr0mem' : r0 ∈ records.map (recordRow (frameCols records)) := hr0mem
      obtain ⟨rec, _, hrec⟩ := List.mem_map.mp hr0mem'
      have hl0 : r0.length = (frameCols records).length := by
        rw [← hrec]; simp [recordRow]
      rw [hlr, List.length_zip]
      simp [normalize_columns, dataFrameOfRecords, hl0, hc2']
    have hcontains : f2.cols.contains "fetched_at" = false := by
      cases hb : f2.cols.contains "fetched_at"
      · rfl
      · exact absurd (List.mem_of_elem_eq_true hb) hnofa
    -- the final frame shape: append branch of the provenance step
    have hshape :
        add_fetched_at ts (drop_duplicates (drop_empty_rows f2)) =
          ⟨f2.cols ++ ["fetched_at"],
           (dedupFuel (f2.rows.filter (keepRow f2.cols)).length
             (f2.rows.filter (keepRow f2.cols))).map
               (fun row => row ++ [some (Scalar.str ts)])⟩ := by
      simp [add_fetched_at, drop_duplicates, drop_empty_rows, hcontains, hnofa]
    rw [hshape]
    have hmem3 : ∀ row ∈ dedupFuel (f2.rows.filter (keepRow f2.cols)).length
        (f2.rows.filter (keepRow f2.cols)),
        row ∈ f2.rows ∧ keepRow f2.cols row = true := by
      intro row hrow
      exact List.mem_filter.mp (dedupFuel_subset _ _ row hrow)
    constructor
    · intro row' hrow'
      obtain ⟨row, hrowmem, hroweq⟩ := List.mem_map.mp hrow'
      obtain ⟨hrowf2, hkeep⟩ := hmem3 row hrowmem
      rw [← hroweq,
        nonProvCells_append_fa f2.cols row _ (hlen1 row hrowf2).symm,
        ← keepRow_eq_any f2.cols row hnofa]
      exact hkeep
    · rw [List.map_map]
      have hid : (dedupFuel (f2.rows.filter (keepRow f2.cols)).length
          (f2.rows.filter (keepRow f2.cols))).map
            ((nonProvCells (f2.cols ++ ["fetched_at"])) ∘
              (fun row => row ++ [some (Scalar.str ts)])) =
          dedupFuel (f2.rows.filter (keepRow f2.cols)).length
            (f2.rows.filter (keepRow f2.cols)) := by
        have hcongr : ∀ row ∈ dedupFuel (f2.rows.filter (keepRow f2.cols)).length
            (f2.rows.filter (keepRow f2.cols)),
            nonProvCells (f2.cols ++ ["fetched_at"]) (row ++ [some (Scalar.str ts)]) = row := by
          intro row hrow
          obtain ⟨hrowf2, _⟩ := hmem3 row hrow
          rw [nonProvCells_append_fa f2.cols row _ (hlen1 row hrowf2).symm,
            nonProvCells_all f2.cols row hnofa]
          exact List.map_snd_zip _ _ (le_of_eq (hlen1 row hrowf2))
        calc (dedupFuel _ _).map _ = (dedupFuel (f2.rows.filter (keepRow f2.cols)).length
            (f2.rows.filter (keepRow f2.cols))).map id := List.map_congr_left hcongr
          _ = _ := List.map_id _
      rw [hid]
      exact dedupFuel_nodup _ _ (le_refl _)

/-- C7 counterexample: the raw response whose two records already carry a
`fetched_at` field and differ only in it cleans to a frame with two fully
identical rows, refuting the duplicate-freedom invariant as claimed for
every record sequence. -/
theorem clean_fetched_at_input_duplicate_rows :
    clean_data "T" rawFetchedAtInput = .ok frameFetchedAtInput ∧
    ¬ (frameFetchedAtInput.rows.map (nonProvCells frameFetchedAtInput.cols)).Nodup := by
  exact ⟨rfl, by decide⟩

/-- C7 witness: a two-record input with a duplicate record cleans to a frame
satisfying both invariants. -/
theorem clean_records_invariants_witness :
    (∀ row ∈ frameDupInput.rows,
      (nonProvCells frameDupInput.cols row).any Option.isSome = true) ∧
    (frameDupInput.rows.map (nonProvCells frameDupInput.cols)).Nodup :=
  clean_records_invariants "T" recordsDupInput frameDupInput rfl (by decide)

end Faostat
